import Mathlib

/-!
Shallow embedding of the in-browser raster image editor
(`ImageEditorModal.tsx`): its data model (EditorState snapshots, strokes,
text objects, crop box, drag session), its history manager
(`pushState` / `handleUndo` / `handleRedo` / `handleReset`), and its tool
handlers (resize, crop, draw, text), together with theorems checking the
specification's claims about them.

Conventions of the embedding:
* JavaScript numbers are modelled as `ℚ` (exact rational arithmetic);
  quantities that the source only ever produces as integers
  (`naturalWidth`, `parseInt` results, `Math.round` results) are `Int`.
* `Math.round x` is `Int.floor (x + 1/2)` (JS rounds half toward +∞).
* The two numeric resize text fields are modelled by their `parseInt`
  interpretation: `Option Int`, `none` standing for content that parses
  to `NaN`.
* Raster data is opaque: an `ImageRef` is either the source URL or a
  crop of a previous `ImageRef` (recording the exact `drawImage`
  parameters), standing for the data URL `canvas.toDataURL` returns.
* React state setters batched inside one handler are modelled as a single
  record update computing the post-render state.
-/

namespace ImageEditor

/-- A point in canvas pixel coordinates, as captured by the draw tool. -/
structure Point where
  x : ℚ
  y : ℚ
deriving DecidableEq

/-- One drawing primitive: a freehand stroke (`mode: 'free'`, a point list)
or a straight line (`mode: 'line'`, a start and an end point). -/
inductive Stroke
  | free (color : String) (size : Int) (points : List Point)
  | line (color : String) (size : Int) (start stop : Point)
deriving DecidableEq

/-- The `mode` tag a geometric operation stamps on the snapshot it pushes. -/
inductive Mode
  | resize
  | crop
deriving DecidableEq

/-- Opaque raster reference: the source `imageUrl`, or the data URL produced
by cropping an earlier reference with the given `drawImage` parameters
`(sx, sy, sw, sh)` onto a `dw × dh` canvas. -/
inductive ImageRef
  | source (url : String)
  | cropped (base : ImageRef) (sx sy sw sh : ℚ) (dw dh : Int)
deriving DecidableEq

/-- One history snapshot (the `EditorState` interface of the source). -/
structure EditorState where
  rotation : Int
  filter : String
  drawings : List Stroke
  width : Option Int := none
  height : Option Int := none
  mode : Option Mode := none
  imageSrc : Option ImageRef := none
deriving DecidableEq

/-- The `ToolType` union of the source. -/
inductive ToolType
  | none
  | resize
  | crop
  | filter
  | rotate
  | draw
  | text
deriving DecidableEq

/-- The `DrawMode` union of the source. -/
inductive DrawMode
  | free
  | line
deriving DecidableEq

/-- The `CropRatio` union of the source. -/
inductive CropRatio
  | custom
  | square
  | r3x2
  | r4x3
  | r5x4
  | r7x5
  | r16x9
deriving DecidableEq

/-- Percentage crop box (`left`/`top`/`width`/`height`, in percent of the
displayed image box). -/
structure CropBox where
  left : ℚ
  top : ℚ
  width : ℚ
  height : ℚ
deriving DecidableEq

/-- The `type` strings a drag session can carry: `'create'`, `'move'`, and
the eight resize-handle names. -/
inductive DragType
  | create
  | move
  | topLeft
  | topRight
  | bottomLeft
  | bottomRight
  | leftSide
  | rightSide
  | topSide
  | bottomSide
deriving DecidableEq

/-- Mirrors `dragSession.type.includes('right')` on the handle strings:
true exactly for `'top-right'`, `'bottom-right'`, `'right'`. -/
def DragType.hasRight : DragType → Bool
  | DragType.topRight => true
  | DragType.bottomRight => true
  | DragType.rightSide => true
  | _ => false

/-- Mirrors `dragSession.type.includes('left')`. -/
def DragType.hasLeft : DragType → Bool
  | DragType.topLeft => true
  | DragType.bottomLeft => true
  | DragType.leftSide => true
  | _ => false

/-- Mirrors `dragSession.type.includes('top')`. -/
def DragType.hasTop : DragType → Bool
  | DragType.topLeft => true
  | DragType.topRight => true
  | DragType.topSide => true
  | _ => false

/-- Mirrors `dragSession.type.includes('bottom')`. -/
def DragType.hasBottom : DragType → Bool
  | DragType.bottomLeft => true
  | DragType.bottomRight => true
  | DragType.bottomSide => true
  | _ => false

/-- A pending pointer drag (`dragSession` in the source). -/
structure DragSession where
  type : DragType
  startX : ℚ
  startY : ℚ
  startBox : CropBox
deriving DecidableEq

/-- Text alignment of a text object. -/
inductive Align
  | left
  | center
  | right
deriving DecidableEq

/-- A positioned, styled text overlay (`textObjects` entries). `x`, `y` are
percentages of the displayed image container. -/
structure TextObject where
  id : String
  text : String
  x : ℚ
  y : ℚ
  size : Int
  color : String
  bold : Bool
  italic : Bool
  underline : Bool
  align : Align
deriving DecidableEq

/-- The natural pixel dimensions the source reads off the `<img>` element. -/
structure ImgElem where
  naturalWidth : Int
  naturalHeight : Int
deriving DecidableEq

/-- A DOM bounding rectangle (`getBoundingClientRect()` result). -/
structure Rect where
  left : ℚ
  top : ℚ
  width : ℚ
  height : ℚ
deriving DecidableEq

/-- The whole component state of `ImageEditorModal` after the `isOpen`
initialization effect has run (one field per `useState` hook that carries
editor behaviour; pure popover-visibility booleans are omitted), plus the
fixed `imageUrl` prop. -/
structure ModalState where
  imageUrl : String
  history : List EditorState
  historyIndex : Int
  currentImage : ImageRef
  currentState : EditorState
  activeTool : ToolType
  drawMode : DrawMode
  drawColor : String
  brushSize : Int
  textBold : Bool
  textItalic : Bool
  textUnderline : Bool
  textAlign : Align
  textColor : String
  textSize : Int
  resizeWidth : Option Int
  resizeHeight : Option Int
  maintainRatio : Bool
  originalRatio : ℚ
  isDrawing : Bool
  startPoint : Option Point
  cropRatio : CropRatio
  cropBox : CropBox
  dragSession : Option DragSession
  isCreatingCrop : Bool
  textObjects : List TextObject
  editingTextId : Option String
deriving DecidableEq

/-- JS `Math.round`: half-integers round toward +∞. -/
def jsRound (q : ℚ) : Int := Int.floor (q + 1/2)

/-- JS `a || d` on an optional number: `d` when the value is absent
(`undefined`) or `0` (both falsy), the value otherwise. -/
def jsOrI (o : Option Int) (d : Int) : Int :=
  match o with
  | some v => if v = 0 then d else v
  | none => d

/-- JS truthiness of an optional number (`if (x.width)`): false for
`undefined` and `0`. -/
def intTruthy (o : Option Int) : Bool :=
  match o with
  | some v => decide (v ≠ 0)
  | none => false

/-- JS `Math.max(0, Math.min(100, q))`. -/
def clampPercent (q : ℚ) : ℚ := max 0 (min 100 q)

/-- ECMAScript whitespace, the character set `String.prototype.trim`
strips: *WhiteSpace* (tab, vertical tab, form feed, space, no-break
space, zero-width no-break space U+FEFF, and the Unicode space
separators Zs: U+0020, U+00A0, U+1680, U+2000–U+200A, U+202F, U+205F,
U+3000) together with the *LineTerminators* LF, CR, U+2028 and U+2029. -/
def jsWhitespace (c : Char) : Bool :=
  c.toNat == 0x09 || c.toNat == 0x0A || c.toNat == 0x0B || c.toNat == 0x0C ||
  c.toNat == 0x0D || c.toNat == 0x20 || c.toNat == 0xA0 || c.toNat == 0x1680 ||
  (decide (0x2000 ≤ c.toNat) && decide (c.toNat ≤ 0x200A)) ||
  c.toNat == 0x2028 || c.toNat == 0x2029 || c.toNat == 0x202F ||
  c.toNat == 0x205F || c.toNat == 0x3000 || c.toNat == 0xFEFF

/-- JS `!s.trim()`: true exactly when every character of `s` is ECMAScript
whitespace (equivalently, when `s.trim() === ''`). -/
def blankText (s : String) : Bool := s.data.all jsWhitespace

/-- JS `Array.prototype.indexOf`: index of the first occurrence, `-1` when
absent. -/
def jsIndexOf (l : List String) (s : String) : Int :=
  match l with
  | [] => -1
  | a :: rest => if a = s then 0 else
      let r := jsIndexOf rest s
      if r = -1 then -1 else r + 1

/-- The baseline snapshot built by the `isOpen` effect and by `handleReset`:
rotation 0, filter `'none'`, no drawings, the original image reference. -/
def initialEditorState (url : String) : EditorState :=
  { rotation := 0
    filter := "none"
    drawings := []
    imageSrc := some (ImageRef.source url) }

/-- The component state right after the `isOpen` initialization effect:
history re-seeded to the single baseline entry, cursor 0, all other hooks
at their `useState` defaults. -/
def initialModalState (url : String) : ModalState :=
  { imageUrl := url
    history := [initialEditorState url]
    historyIndex := 0
    currentImage := ImageRef.source url
    currentState := initialEditorState url
    activeTool := ToolType.none
    drawMode := DrawMode.free
    drawColor := "#00a9ff"
    brushSize := 12
    textBold := false
    textItalic := false
    textUnderline := false
    textAlign := Align.left
    textColor := "#00a9ff"
    textSize := 50
    resizeWidth := some 2000
    resizeHeight := some 1333
    maintainRatio := true
    originalRatio := 2000 / 1333
    isDrawing := false
    startPoint := none
    cropRatio := CropRatio.custom
    cropBox := ⟨0, 0, 0, 0⟩
    dragSession := none
    isCreatingCrop := false
    textObjects := []
    editingTextId := none }

/-- `pushState`: truncate the history after the cursor
(`history.slice(0, historyIndex + 1)`), append the new snapshot, move the
cursor to the new tip, and make the snapshot current. -/
def pushState (st : ModalState) (newState : EditorState) : ModalState :=
  let newHistory := st.history.take (st.historyIndex + 1).toNat ++ [newState]
  { st with
    history := newHistory
    historyIndex := (newHistory.length : Int) - 1
    currentState := newState }

/-- `handleUndo`: no-op unless `historyIndex > 0`; otherwise decrement the
cursor, make the previous snapshot current, and sync `currentImage` and the
resize fields from its truthy fields. Out-of-bounds reads cannot occur
when `0 ≤ historyIndex < history.length`; the fallback arm returns the
state unchanged. -/
def handleUndo (st : ModalState) : ModalState :=
  if st.historyIndex > 0 then
    match st.history[(st.historyIndex - 1).toNat]? with
    | some prevState =>
        { st with
          historyIndex := st.historyIndex - 1
          currentState := prevState
          currentImage := match prevState.imageSrc with
            | some src => src
            | none => st.currentImage
          resizeWidth := if intTruthy prevState.width then prevState.width
            else st.resizeWidth
          resizeHeight := if intTruthy prevState.height then prevState.height
            else st.resizeHeight }
    | none => st
  else st

/-- `handleRedo`: no-op unless `historyIndex < history.length - 1`;
otherwise increment the cursor and make the next snapshot current,
syncing `currentImage` and the resize fields the same way as undo. -/
def handleRedo (st : ModalState) : ModalState :=
  if st.historyIndex < (st.history.length : Int) - 1 then
    match st.history[(st.historyIndex + 1).toNat]? with
    | some nextState =>
        { st with
          historyIndex := st.historyIndex + 1
          currentState := nextState
          currentImage := match nextState.imageSrc with
            | some src => src
            | none => st.currentImage
          resizeWidth := if intTruthy nextState.width then nextState.width
            else st.resizeWidth
          resizeHeight := if intTruthy nextState.height then nextState.height
            else st.resizeHeight }
    | none => st
  else st

/-- `handleReset`: push a fresh baseline snapshot, restore the original
image, and reset the crop ratio and crop box. (It touches nothing else:
in particular `dragSession` is left as it is.) -/
def handleReset (st : ModalState) : ModalState :=
  let st1 := pushState st (initialEditorState st.imageUrl)
  { st1 with
    currentImage := ImageRef.source st.imageUrl
    cropRatio := CropRatio.custom
    cropBox := ⟨0, 0, 0, 0⟩ }

/-- `handleRotate`: push a copy of the current snapshot with the rotation
advanced by 90 degrees modulo 360. -/
def handleRotate (st : ModalState) : ModalState :=
  pushState st { st.currentState with
    rotation := (st.currentState.rotation + 90) % 360 }

/-- The fixed filter cycle of `handleFilter`. -/
def filters : List String :=
  ["none", "grayscale(100%)", "sepia(100%)", "blur(5px)", "brightness(150%)"]

/-- `handleFilter`: push a copy of the current snapshot with the next filter
in the cycle (`indexOf` yields `-1` for an unknown filter, so the next is
`'none'`). -/
def handleFilter (st : ModalState) : ModalState :=
  let currentIdx := jsIndexOf filters st.currentState.filter
  let nextIdx := (currentIdx + 1) % (filters.length : Int)
  pushState st { st.currentState with
    filter := (filters[nextIdx.toNat]?).getD "none" }

/-- `handleResizeApply`: if both fields parse (`!isNaN`), push a snapshot
with the new logical dimensions and `mode: 'resize'`, then deactivate the
tool; otherwise do nothing. -/
def handleResizeApply (st : ModalState) : ModalState :=
  match st.resizeWidth, st.resizeHeight with
  | some w, some h =>
      let st1 := pushState st { st.currentState with
        width := some w
        height := some h
        mode := some Mode.resize }
      { st1 with activeTool := ToolType.none }
  | _, _ => st

/-- The `ratios` record of `handleCropApply`; `ratios[cropRatio]` is
`undefined` (here `none`) only for `'custom'`. -/
def ratios : CropRatio → Option ℚ
  | CropRatio.square => some 1
  | CropRatio.r3x2 => some (3 / 2)
  | CropRatio.r4x3 => some (4 / 3)
  | CropRatio.r5x4 => some (5 / 4)
  | CropRatio.r7x5 => some (7 / 5)
  | CropRatio.r16x9 => some (16 / 9)
  | CropRatio.custom => none

/-- The effective source width `handleCropApply` works with:
`currentState.width || img.naturalWidth`. -/
def effWidth (st : ModalState) (img : ImgElem) : ℚ :=
  (jsOrI st.currentState.width img.naturalWidth : Int)

/-- The effective source height: `currentState.height || img.naturalHeight`. -/
def effHeight (st : ModalState) (img : ImgElem) : ℚ :=
  (jsOrI st.currentState.height img.naturalHeight : Int)

/-- The tail of a successful `handleCropApply`: round the final dimensions,
extract the `(sx, sy, sw, sh)` rectangle of the displayed image onto a
`roundedWidth × roundedHeight` canvas, push the snapshot
(`mode: 'crop'`, new dimensions, new image reference), re-seed the resize
fields and the display aspect ratio, clear the crop box, and deactivate
the tool. -/
def applyCrop (st : ModalState) (finalWidth finalHeight sx sy sw sh : ℚ) :
    ModalState :=
  let roundedWidth := jsRound finalWidth
  let roundedHeight := jsRound finalHeight
  let cropped := ImageRef.cropped st.currentImage sx sy sw sh
    roundedWidth roundedHeight
  let st1 := pushState st { st.currentState with
    width := some roundedWidth
    height := some roundedHeight
    mode := some Mode.crop
    imageSrc := some cropped }
  { st1 with
    originalRatio := (roundedWidth : ℚ) / (roundedHeight : ℚ)
    currentImage := cropped
    resizeWidth := some roundedWidth
    resizeHeight := some roundedHeight
    cropBox := ⟨0, 0, 0, 0⟩
    activeTool := ToolType.none }

/-- `handleCropApply`. `imgOpt` is the `<img>` element (`imageRef.current`);
a missing element aborts. For a custom crop the percentage box is
validated (`width ≥ 1`, `height ≥ 1`, resulting pixel rectangle at least
`10 × 10`) and converted to source pixels; for a preset ratio the largest
centered rectangle of that ratio is taken. A rejected validation returns
the state unchanged. -/
def handleCropApply (st : ModalState) (imgOpt : Option ImgElem) : ModalState :=
  match imgOpt with
  | none => st
  | some img =>
      let width := effWidth st img
      let height := effHeight st img
      if width = 0 ∨ height = 0 then st
      else if st.cropRatio = CropRatio.custom then
        if st.cropBox.width < 1 ∨ st.cropBox.height < 1 then st
        else
          let finalWidth := width * st.cropBox.width / 100
          let finalHeight := height * st.cropBox.height / 100
          if finalWidth < 10 ∨ finalHeight < 10 then st
          else
            applyCrop st finalWidth finalHeight
              (width * st.cropBox.left / 100) (height * st.cropBox.top / 100)
              (width * st.cropBox.width / 100) (height * st.cropBox.height / 100)
      else
        match ratios st.cropRatio with
        | some tr =>
            if width / height > tr then
              applyCrop st (height * tr) height
                ((width - height * tr) / 2) 0 (height * tr) height
            else
              applyCrop st width (width / tr)
                0 ((height - width / tr) / 2) width (width / tr)
        | none => applyCrop st width height 0 0 width height

/-- `handleCropBoxMouseDown`: open a drag session of the given kind from
the pointer position, snapshotting the current crop box. -/
def handleCropBoxMouseDown (st : ModalState) (type : DragType)
    (clientX clientY : ℚ) : ModalState :=
  { st with dragSession := some ⟨type, clientX, clientY, st.cropBox⟩ }

/-- `handleEditorMouseDown` with the image container's bounding rectangle.
Text tool: create one empty text object at the clamped percentage position
and put it into edit mode (`freshId` models the `text-${Date.now()}` id).
Crop tool in custom mode: start creating a box at the clamped position.
Anything else: no-op. -/
def handleEditorMouseDown (st : ModalState) (clientX clientY : ℚ)
    (container : Option Rect) (freshId : String) : ModalState :=
  if st.activeTool = ToolType.text then
    match container with
    | none => st
    | some rect =>
        let xPercent := clampPercent ((clientX - rect.left) / rect.width * 100)
        let yPercent := clampPercent ((clientY - rect.top) / rect.height * 100)
        let newText : TextObject :=
          { id := freshId
            text := ""
            x := xPercent
            y := yPercent
            size := st.textSize
            color := st.textColor
            bold := st.textBold
            italic := st.textItalic
            underline := st.textUnderline
            align := st.textAlign }
        { st with
          textObjects := st.textObjects ++ [newText]
          editingTextId := some freshId }
  else if st.activeTool ≠ ToolType.crop ∨ st.cropRatio ≠ CropRatio.custom then st
  else
    match container with
    | none => st
    | some rect =>
        let startXPercent := clampPercent ((clientX - rect.left) / rect.width * 100)
        let startYPercent := clampPercent ((clientY - rect.top) / rect.height * 100)
        { st with
          isCreatingCrop := true
          cropBox := ⟨startXPercent, startYPercent, 0, 0⟩
          dragSession := some ⟨DragType.create, clientX, clientY,
            ⟨startXPercent, startYPercent, 0, 0⟩⟩ }

/-- The box-creation arm of `handleEditorMouseMove` (`type === 'create'`):
grow the box from its anchor toward the pointer, clamped into
`[0,100] × [0,100]`. -/
def createBox (box0 : CropBox) (deltaX deltaY : ℚ) : CropBox :=
  let b1 :=
    if deltaX ≥ 0 then
      { box0 with left := box0.left, width := min (100 - box0.left) deltaX }
    else
      let newLeft := max 0 (box0.left + deltaX)
      { box0 with left := newLeft, width := box0.left - newLeft }
  if deltaY ≥ 0 then
    { b1 with top := box0.top, height := min (100 - box0.top) deltaY }
  else
    let newTop := max 0 (box0.top + deltaY)
    { b1 with top := newTop, height := box0.top - newTop }

/-- The move/resize arms of `handleEditorMouseMove`: the horizontal chain
(`'move'` / `includes('right')` / `includes('left')`), then the vertical
chain (`includes('bottom')` / `includes('top')`), each computing deltas
from the drag-start snapshot `box0`, with a 5% minimum size per axis. -/
def adjustBox (type : DragType) (box0 : CropBox) (deltaX deltaY : ℚ) : CropBox :=
  let b1 :=
    if type = DragType.move then
      { box0 with
        left := max 0 (min (100 - box0.width) (box0.left + deltaX))
        top := max 0 (min (100 - box0.height) (box0.top + deltaY)) }
    else if type.hasRight then
      { box0 with width := max 5 (min (100 - box0.left) (box0.width + deltaX)) }
    else if type.hasLeft then
      let possibleX := max 0 (min (box0.left + box0.width - 5) (box0.left + deltaX))
      { box0 with
        width := box0.width + (box0.left - possibleX)
        left := possibleX }
    else box0
  if type.hasBottom then
    { b1 with height := max 5 (min (100 - b1.top) (box0.height + deltaY)) }
  else if type.hasTop then
    let possibleY := max 0 (min (box0.top + box0.height - 5) (box0.top + deltaY))
    { b1 with
      height := box0.height + (box0.top - possibleY)
      top := possibleY }
  else b1

/-- `handleEditorMouseMove`: while a drag session is open, recompute the
crop box from the session's start snapshot and the pointer delta
(percent of the container rectangle). -/
def handleEditorMouseMove (st : ModalState) (clientX clientY : ℚ)
    (container : Option Rect) : ModalState :=
  match st.dragSession, container with
  | some ds, some rect =>
      let deltaX := (clientX - ds.startX) / rect.width * 100
      let deltaY := (clientY - ds.startY) / rect.height * 100
      let newBox :=
        if ds.type = DragType.create then createBox ds.startBox deltaX deltaY
        else adjustBox ds.type ds.startBox deltaX deltaY
      { st with cropBox := newBox }
  | _, _ => st

/-- `handleEditorMouseUp`: close any drag session. -/
def handleEditorMouseUp (st : ModalState) : ModalState :=
  { st with dragSession := none, isCreatingCrop := false }

/-- The canvas element's pixel width: the JSX sets
`width={currentState.width || 1200}`. -/
def canvasWidth (st : ModalState) : Int := jsOrI st.currentState.width 1200

/-- The canvas element's pixel height: `height={currentState.height || 800}`. -/
def canvasHeight (st : ModalState) : Int := jsOrI st.currentState.height 800

/-- Client pointer coordinates rescaled into canvas pixel space:
`(clientX - rect.left) * (canvas.width / rect.width)` and likewise for y,
where `rect` is the canvas's bounding rectangle. -/
def canvasPoint (st : ModalState) (rect : Rect) (clientX clientY : ℚ) : Point :=
  ⟨(clientX - rect.left) * ((canvasWidth st : ℚ) / rect.width),
   (clientY - rect.top) * ((canvasHeight st : ℚ) / rect.height)⟩

/-- `handleCanvasMouseDown` with the canvas's bounding rectangle (`none`
when the ref is unresolved). Only with the draw tool active: start a drag,
record the start point, and in freehand mode immediately append a new
one-point stroke to the live (uncommitted) drawings. -/
def handleCanvasMouseDown (st : ModalState) (clientX clientY : ℚ)
    (rectOpt : Option Rect) : ModalState :=
  if st.activeTool ≠ ToolType.draw then st
  else
    match rectOpt with
    | none => st
    | some rect =>
        let p := canvasPoint st rect clientX clientY
        let st1 := { st with isDrawing := true, startPoint := some p }
        if st.drawMode = DrawMode.free then
          { st1 with currentState := { st.currentState with
              drawings := st.currentState.drawings ++
                [Stroke.free st.drawColor st.brushSize [p]] } }
        else st1

/-- `{ ...stroke, points: [...stroke.points, p] }` on the stroke object.
A line stroke has no `points` array, so there the source would fault on an
undefined spread; that case is unreachable while a freehand drag is in
progress and is modelled as the identity. -/
def appendPoint : Stroke → Point → Stroke
  | Stroke.free c s pts, p => Stroke.free c s (pts ++ [p])
  | Stroke.line c s a b, _ => Stroke.line c s a b

/-- Replace the last stroke by a copy whose point list has `p` appended,
mirroring `newDrawings[lastIdx] = { ...last, points: [...last.points, p] }`.
On an empty list the source would fault (`lastIdx = -1`); that case is
unreachable while a freehand drag is in progress and is modelled as the
identity. -/
def appendPointToLast : List Stroke → Point → List Stroke
  | [], _ => []
  | [s], p => [appendPoint s p]
  | s :: rest, p => s :: appendPointToLast rest p

/-- `handleCanvasMouseMove`: while a draw drag is in progress and the mode
is freehand, append the rescaled pointer position to the stroke being
drawn; in line mode nothing changes. -/
def handleCanvasMouseMove (st : ModalState) (clientX clientY : ℚ)
    (rectOpt : Option Rect) : ModalState :=
  if ¬(st.isDrawing = true ∧ st.activeTool = ToolType.draw) then st
  else
    match rectOpt with
    | none => st
    | some rect =>
        let p := canvasPoint st rect clientX clientY
        if st.drawMode = DrawMode.free then
          { st with currentState := { st.currentState with
              drawings := appendPointToLast st.currentState.drawings p } }
        else st

/-- `handleCanvasMouseUp`: while a draw drag is in progress, commit. In
line mode (with a recorded start point) push a snapshot with one new
two-point line stroke appended; in freehand mode push the current state
(which already holds the finished stroke). Either way close the drag. -/
def handleCanvasMouseUp (st : ModalState) (clientX clientY : ℚ)
    (rectOpt : Option Rect) : ModalState :=
  if ¬(st.isDrawing = true ∧ st.activeTool = ToolType.draw) then st
  else
    match rectOpt with
    | none => st
    | some rect =>
        let p := canvasPoint st rect clientX clientY
        let st1 :=
          match st.drawMode, st.startPoint with
          | DrawMode.line, some sp =>
              pushState st { st.currentState with
                drawings := st.currentState.drawings ++
                  [Stroke.line st.drawColor st.brushSize sp p] }
          | DrawMode.free, _ => pushState st st.currentState
          | DrawMode.line, none => st
        { st1 with isDrawing := false, startPoint := none }

/-- The `onChange` of the text object being edited: update its `text`. -/
def handleTextChange (st : ModalState) (newTextVal : String) : ModalState :=
  match st.editingTextId with
  | none => st
  | some tid =>
      { st with textObjects := st.textObjects.map fun t =>
          if t.id = tid then { t with text := newTextVal } else t }

/-- The `onBlur` of the text object being edited: remove the object when
its text is blank (`!textObj.text.trim()`), then leave edit mode. -/
def handleTextBlur (st : ModalState) : ModalState :=
  match st.editingTextId with
  | none => st
  | some tid =>
      match st.textObjects.find? (fun t => t.id = tid) with
      | none => { st with editingTextId := none }
      | some obj =>
          { st with
            textObjects :=
              if blankText obj.text then
                st.textObjects.filter fun t => ¬(t.id = tid)
              else st.textObjects
            editingTextId := none }

/-- The `Escape` arm of the editing input's `onKeyDown`: remove the object
unconditionally and leave edit mode. (`Enter` blurs the input, so its
effect is `handleTextBlur`.) -/
def handleTextEscape (st : ModalState) : ModalState :=
  match st.editingTextId with
  | none => st
  | some tid =>
      { st with
        textObjects := st.textObjects.filter fun t => ¬(t.id = tid)
        editingTextId := none }

/-- The delete affordance on a committed text object (hover button, or
Delete/Backspace while focused): remove it by id. -/
def handleTextDelete (st : ModalState) (tid : String) : ModalState :=
  { st with textObjects := st.textObjects.filter fun t => ¬(t.id = tid) }

/-- `handleImageLoad`: seed the resize fields and the aspect ratio from the
natural dimensions, and when the current state has no (truthy) width yet,
back-fill `width`/`height` both into `currentState` and into the stored
history snapshot at the cursor (at index 0 when the cursor is negative) —
an in-place edit of history, not a push. -/
def handleImageLoad (st : ModalState) (naturalW naturalH : Int) : ModalState :=
  let st1 := { st with
    resizeWidth := some naturalW
    resizeHeight := some naturalH
    originalRatio := (naturalW : ℚ) / (naturalH : ℚ) }
  if intTruthy st.currentState.width then st1
  else
    let updatedState := { st.currentState with
      width := some naturalW, height := some naturalH }
    let idx := (if st.historyIndex ≥ 0 then st.historyIndex else 0).toNat
    let newHistory :=
      match st.history[idx]? with
      | some entry =>
          st.history.set idx { entry with
            width := some naturalW, height := some naturalH }
      | none => st.history
    { st1 with currentState := updatedState, history := newHistory }

/-- The `onChange` of the resize width field, with the field's new content
already read through `parseInt` (`none` = `NaN`): store it, and with the
ratio lock on and a parsed value, recompute the height field as
`Math.round(w / originalRatio)`. -/
def handleResizeWidthChange (st : ModalState) (val : Option Int) : ModalState :=
  let st1 := { st with resizeWidth := val }
  match val, st.maintainRatio with
  | some w, true =>
      { st1 with resizeHeight := some (jsRound ((w : ℚ) / st.originalRatio)) }
  | _, _ => st1

/-- The `onChange` of the resize height field: symmetric, recomputing the
width field as `Math.round(h * originalRatio)`. -/
def handleResizeHeightChange (st : ModalState) (val : Option Int) : ModalState :=
  let st1 := { st with resizeHeight := val }
  match val, st.maintainRatio with
  | some h, true =>
      { st1 with resizeWidth := some (jsRound ((h : ℚ) * st.originalRatio)) }
  | _, _ => st1

/-- One user-interface event of the editor, with the environment data the
corresponding source handler reads from the DOM (bounding rectangles,
the image element's natural dimensions, a fresh text-object id). -/
inductive Event
  | undoClick
  | redoClick
  | resetClick
  | rotateClick
  | filterClick
  | resizeToolClick
  | cropToolClick
  | drawToolClick
  | textToolClick
  | resizeApplyClick
  | resizeCancelClick
  | editResizeWidth (val : Option Int)
  | editResizeHeight (val : Option Int)
  | toggleMaintain (b : Bool)
  | cropApplyClick (img : Option ImgElem)
  | cropCancelClick
  | selectCropRatio (r : CropRatio)
  | cropBoxDown (type : DragType) (clientX clientY : ℚ)
  | editorDown (clientX clientY : ℚ) (container : Option Rect) (freshId : String)
  | editorMove (clientX clientY : ℚ) (container : Option Rect)
  | editorUp
  | canvasDown (clientX clientY : ℚ) (rect : Option Rect)
  | canvasMove (clientX clientY : ℚ) (rect : Option Rect)
  | canvasUp (clientX clientY : ℚ) (rect : Option Rect)
  | selectDrawMode (m : DrawMode)
  | selectDrawColor (c : String)
  | selectBrushSize (n : Int)
  | toggleTextBold
  | toggleTextItalic
  | toggleTextUnderline
  | selectTextAlign (a : Align)
  | selectTextColor (c : String)
  | selectTextSize (n : Int)
  | textEdit (s : String)
  | textBlurEvent
  | textEnterKey
  | textEscapeKey
  | textDeleteClick (tid : String)
  | imageLoadEvent (naturalW naturalH : Int)

/-- The transition function: each event dispatches to the handler its JSX
`onClick`/`onChange`/pointer attribute names (toolbar buttons that call a
handler and then set the active tool do both, as in the source; the draw
tool button toggles; crop cancel also resets the ratio and the box). -/
def step (st : ModalState) : Event → ModalState
  | Event.undoClick => handleUndo st
  | Event.redoClick => handleRedo st
  | Event.resetClick => handleReset st
  | Event.rotateClick => { handleRotate st with activeTool := ToolType.rotate }
  | Event.filterClick => { handleFilter st with activeTool := ToolType.filter }
  | Event.resizeToolClick => { st with activeTool := ToolType.resize }
  | Event.cropToolClick => { st with activeTool := ToolType.crop }
  | Event.drawToolClick =>
      { st with activeTool :=
          if st.activeTool = ToolType.draw then ToolType.none else ToolType.draw }
  | Event.textToolClick => { st with activeTool := ToolType.text }
  | Event.resizeApplyClick => handleResizeApply st
  | Event.resizeCancelClick => { st with activeTool := ToolType.none }
  | Event.editResizeWidth val => handleResizeWidthChange st val
  | Event.editResizeHeight val => handleResizeHeightChange st val
  | Event.toggleMaintain b => { st with maintainRatio := b }
  | Event.cropApplyClick img => handleCropApply st img
  | Event.cropCancelClick =>
      { st with
        cropRatio := CropRatio.custom
        cropBox := ⟨0, 0, 0, 0⟩
        activeTool := ToolType.none }
  | Event.selectCropRatio r => { st with cropRatio := r }
  | Event.cropBoxDown type clientX clientY =>
      handleCropBoxMouseDown st type clientX clientY
  | Event.editorDown clientX clientY container freshId =>
      handleEditorMouseDown st clientX clientY container freshId
  | Event.editorMove clientX clientY container =>
      handleEditorMouseMove st clientX clientY container
  | Event.editorUp => handleEditorMouseUp st
  | Event.canvasDown clientX clientY rect =>
      handleCanvasMouseDown st clientX clientY rect
  | Event.canvasMove clientX clientY rect =>
      handleCanvasMouseMove st clientX clientY rect
  | Event.canvasUp clientX clientY rect =>
      handleCanvasMouseUp st clientX clientY rect
  | Event.selectDrawMode m => { st with drawMode := m }
  | Event.selectDrawColor c => { st with drawColor := c }
  | Event.selectBrushSize n => { st with brushSize := n }
  | Event.toggleTextBold => { st with textBold := ¬st.textBold }
  | Event.toggleTextItalic => { st with textItalic := ¬st.textItalic }
  | Event.toggleTextUnderline => { st with textUnderline := ¬st.textUnderline }
  | Event.selectTextAlign a => { st with textAlign := a }
  | Event.selectTextColor c => { st with textColor := c }
  | Event.selectTextSize n => { st with textSize := n }
  | Event.textEdit s => handleTextChange st s
  | Event.textBlurEvent => handleTextBlur st
  | Event.textEnterKey => handleTextBlur st
  | Event.textEscapeKey => handleTextEscape st
  | Event.textDeleteClick tid => handleTextDelete st tid
  | Event.imageLoadEvent naturalW naturalH => handleImageLoad st naturalW naturalH

/-- Reachability: the states the editor can be in, starting from a freshly
opened modal on `url` and following any sequence of events. -/
inductive Reachable (url : String) : ModalState → Prop
  | init : Reachable url (initialModalState url)
  | next (s : ModalState) (e : Event) (hs : Reachable url s) :
      Reachable url (step s e)

/-- Environment guard for the well-behaved transition system: a loaded
image or a crop source always reports positive natural dimensions, and the
resize apply button is only pressed while both fields hold positive
integers. All other events are unrestricted. -/
def goodEvent (st : ModalState) : Event → Bool
  | Event.resizeApplyClick =>
      match st.resizeWidth, st.resizeHeight with
      | some w, some h => decide (0 < w) && decide (0 < h)
      | _, _ => true
  | Event.cropApplyClick imgOpt =>
      match imgOpt with
      | some img => decide (0 < img.naturalWidth) && decide (0 < img.naturalHeight)
      | none => true
  | Event.imageLoadEvent naturalW naturalH =>
      decide (0 < naturalW) && decide (0 < naturalH)
  | _ => true

/-- Guarded reachability: like `Reachable`, but every step satisfies
`goodEvent`. -/
inductive ReachableGood (url : String) : ModalState → Prop
  | init : ReachableGood url (initialModalState url)
  | next (s : ModalState) (e : Event) (hs : ReachableGood url s)
      (he : goodEvent s e = true) : ReachableGood url (step s e)

/-- A sequence of `pushState` calls, in order. -/
def pushMany (st : ModalState) (l : List EditorState) : ModalState :=
  l.foldl pushState st

/-- `handleUndo` iterated `n` times. -/
def undoIter : Nat → ModalState → ModalState
  | 0, st => st
  | n + 1, st => undoIter n (handleUndo st)

/-- A state with a cleared history, for exercising the history contract. -/
def c1EmptySt : ModalState :=
  { initialModalState "u" with history := [], historyIndex := -1 }

/-- A first sample snapshot. -/
def snapA : EditorState := initialEditorState "a"

/-- A second sample snapshot. -/
def snapB : EditorState := { snapA with rotation := 90 }

/-- A state in which a crop-box drag is still pending. -/
def c7DragSt : ModalState :=
  { initialModalState "u" with
    dragSession := some ⟨DragType.move, 5, 5, ⟨10, 10, 20, 20⟩⟩ }

/-- The spec's own example: a 1000×1000 source with custom crop box
`{left: 10, top: 10, width: 0.5, height: 0.5}` and the crop tool active. -/
def c3St : ModalState :=
  { initialModalState "u" with
    activeTool := ToolType.crop
    currentState := { initialEditorState "u" with
      width := some 1000, height := some 1000 }
    cropBox := ⟨10, 10, 1/2, 1/2⟩ }

/-- The spec's own example: a 2000×1333 source with the square preset. -/
def c4St : ModalState :=
  { initialModalState "u" with
    activeTool := ToolType.crop
    cropRatio := CropRatio.square
    currentState := { initialEditorState "u" with
      width := some 2000, height := some 1333 } }

/-- Run a list of events through `step`, in order. -/
def runEvents (st : ModalState) (evs : List Event) : ModalState :=
  evs.foldl step st

/-- A freshly opened editor with the draw tool active (freehand is the
default draw mode), on a 1×1 canvas displayed at scale 1 so that client
coordinates equal canvas coordinates. -/
def c5St : ModalState :=
  { initialModalState "u" with
    activeTool := ToolType.draw
    currentState := { initialEditorState "u" with
      width := some 1, height := some 1 } }

/-- The canvas bounding rectangle for `c5St`: origin 0, size 1×1. -/
def c5Rect : Rect := ⟨0, 0, 1, 1⟩

/-- A sample text object whose text is a single ideographic full-width
space U+3000 — non-empty, but stripped by JS `trim()`. -/
def c6WsObj : TextObject :=
  { id := "t1"
    text := "\u3000"
    x := 50
    y := 50
    size := 50
    color := "#00a9ff"
    bold := false
    italic := false
    underline := false
    align := Align.left }

/-- An editor with the whitespace-text object in edit mode. -/
def c6WsSt : ModalState :=
  { initialModalState "u" with
    textObjects := [c6WsObj]
    editingTextId := some "t1" }

/-- A sample text object holding the non-blank text `"hi"`. -/
def c6HiObj : TextObject := { c6WsObj with text := "hi" }

/-- An editor with the non-blank text object in edit mode. -/
def c6HiSt : ModalState :=
  { initialModalState "u" with
    textObjects := [c6HiObj]
    editingTextId := some "t1" }

/-- The dimension property claimed of a snapshot: `width` and `height`,
whenever present, are positive (integrality is structural: every source
assignment site — `naturalWidth`, `parseInt`, `Math.round` — produces an
integer, so the fields are `Option Int`). -/
def dimsPos (e : EditorState) : Bool :=
  (match e.width with
    | some w => decide (0 < w)
    | none => true) &&
  (match e.height with
    | some h => decide (0 < h)
    | none => true)

/-- The claimed invariant over a whole component state: the current
snapshot and every stored history snapshot satisfy `dimsPos`. -/
def posInv (st : ModalState) : Bool :=
  dimsPos st.currentState && st.history.all dimsPos

/-- A reachable event trace that defeats the positivity claim: turn the
ratio lock off, type `0` into the width field (`parseInt('0') = 0`, not
`NaN`), and press apply — `handleResizeApply` only checks `!isNaN`, so it
pushes a snapshot with `width = 0`. -/
def c9Trace : List Event :=
  [Event.toggleMaintain false, Event.editResizeWidth (some 0),
   Event.resizeApplyClick]

theorem pushState_tip (st : ModalState) (s : EditorState)
    (h : st.historyIndex = (st.history.length : Int) - 1) :
    (pushState st s).history = st.history ++ [s] := by
  have hlen : (st.historyIndex + 1).toNat = st.history.length := by omega
  simp [pushState, hlen, List.take_length]

theorem pushMany_spec (l : List EditorState) : ∀ st : ModalState,
    st.historyIndex = (st.history.length : Int) - 1 →
    (pushMany st l).history = st.history ++ l ∧
    (pushMany st l).historyIndex = ((st.history.length + l.length : Nat) : Int) - 1 ∧
    (pushMany st l).currentState = l.getLastD st.currentState := by
  induction l with
  | nil => intro st h; simpa [pushMany] using h
  | cons a rest ih =>
      intro st h
      have hpush : (pushState st a).history = st.history ++ [a] := pushState_tip st a h
      have hsync : (pushState st a).historyIndex =
          ((pushState st a).history.length : Int) - 1 := by
        simp [pushState]
      have hrest := ih (pushState st a) hsync
      have hcur : (pushState st a).currentState = a := rfl
      refine ⟨?_, ?_, ?_⟩
      · have := hrest.1
        rw [hpush] at this
        simpa [pushMany, List.append_assoc] using this
      · have := hrest.2.1
        rw [hpush] at this
        simp only [pushMany, List.foldl_cons] at *
        rw [this]
        simp
        omega
      · have := hrest.2.2
        rw [hcur] at this
        rw [show pushMany st (a :: rest) = pushMany (pushState st a) rest from rfl,
          List.getLastD_cons]
        exact this

theorem undoIter_at (l : List EditorState) : ∀ (k : Nat) (st : ModalState),
    st.history = l →
    ∀ j : Nat, j < l.length → st.historyIndex = (j : Int) →
    l[j]? = some st.currentState →
    k ≤ j →
    (undoIter k st).history = l ∧
    (undoIter k st).historyIndex = ((j - k : Nat) : Int) ∧
    l[j - k]? = some (undoIter k st).currentState := by
  intro k
  induction k with
  | zero => intro st hh j hj hi hc _; simpa [undoIter] using ⟨hh, hi, hc⟩
  | succ n ih =>
      intro st hh j hj hi hc hk
      have hj0 : 0 < j := by omega
      have hb2 : j - 1 < l.length := by omega
      have hstep : handleUndo st =
          { st with
            historyIndex := st.historyIndex - 1
            currentState := l[j - 1]
            currentImage := match (l[j - 1]).imageSrc with
              | some src => src
              | none => st.currentImage
            resizeWidth := if intTruthy (l[j - 1]).width then (l[j - 1]).width
              else st.resizeWidth
            resizeHeight := if intTruthy (l[j - 1]).height then (l[j - 1]).height
              else st.resizeHeight } := by
        have hpos : st.historyIndex > 0 := by omega
        have hidx : (st.historyIndex - 1).toNat = j - 1 := by omega
        have hget : st.history[(st.historyIndex - 1).toNat]? = some l[j - 1] := by
          rw [hh, hidx]
          exact List.getElem?_eq_getElem (by omega)
        simp only [handleUndo, hget, hpos, if_true]
      have h1 : (handleUndo st).history = l := by rw [hstep]; exact hh
      have h2 : (handleUndo st).historyIndex = ((j - 1 : Nat) : Int) := by
        rw [hstep]; simp [hi]; omega
      have h3 : l[j - 1]? = some (handleUndo st).currentState := by
        rw [hstep]
        exact List.getElem?_eq_getElem (by omega)
      have := ih (handleUndo st) h1 (j - 1) (by omega) h2 h3 (by omega)
      have hjk : j - 1 - n = j - (n + 1) := by omega
      rw [hjk] at this
      simpa [undoIter] using this

theorem getLastD_getElem? (l : List EditorState) (d : EditorState) (h : l ≠ []) :
    l[l.length - 1]? = some (l.getLastD d) := by
  induction l with
  | nil => simp at h
  | cons a rest ih =>
      cases rest with
      | nil => simp
      | cons b rest2 =>
          have := ih (by simp)
          simpa [List.getLastD_cons] using this

/-- C1. Starting from an empty history (`history = []`, cursor `-1`), a
sequence of `pushState` calls for the snapshots `l` (no intervening undo)
leaves the cursor at `N - 1`; after `k ≤ N - 1` undos the cursor is at
`N - 1 - k` and the current state is the snapshot pushed at that position
(so `N - 1` undos reach the first pushed state, visiting the snapshots in
reverse order); `handleUndo` is a no-op (the state is unchanged) when the
cursor is at 0, and `handleRedo` is a no-op when the cursor is at the tip. -/
theorem c1_push_undo_redo_contract :
    (∀ (st : ModalState) (l : List EditorState),
      st.history = [] → st.historyIndex = -1 →
      (pushMany st l).historyIndex = (l.length : Int) - 1) ∧
    (∀ (st : ModalState) (l : List EditorState),
      st.history = [] → st.historyIndex = -1 → l ≠ [] →
      ∀ k : Nat, k ≤ l.length - 1 →
      (undoIter k (pushMany st l)).historyIndex = ((l.length - 1 - k : Nat) : Int) ∧
      l[l.length - 1 - k]? = some (undoIter k (pushMany st l)).currentState) ∧
    (∀ s : ModalState, s.historyIndex = 0 → handleUndo s = s) ∧
    (∀ s : ModalState, s.historyIndex = (s.history.length : Int) - 1 →
      handleRedo s = s) := by
  refine ⟨?_, ?_, ?_, ?_⟩
  · intro st l hh hi
    have := (pushMany_spec l st (by rw [hh, hi]; simp)).2.1
    rw [hh] at this
    simpa using this
  · intro st l hh hi hne k hk
    have hbase := pushMany_spec l st (by rw [hh, hi]; simp)
    have hlh : (pushMany st l).history = l := by
      have := hbase.1; rwa [hh, List.nil_append] at this
    have hlen0 : 0 < l.length := List.length_pos.mpr hne
    have hli : (pushMany st l).historyIndex = ((l.length - 1 : Nat) : Int) := by
      have := hbase.2.1; rw [hh] at this; simp at this; omega
    have hlc : l[l.length - 1]? = some (pushMany st l).currentState := by
      rw [hbase.2.2]
      exact getLastD_getElem? l st.currentState hne
    have := undoIter_at l k (pushMany st l) hlh (l.length - 1) (by omega) hli hlc hk
    exact ⟨this.2.1, this.2.2⟩
  · intro s hs
    simp [handleUndo, hs]
  · intro s hs
    simp [handleRedo, hs]

theorem c1_push_undo_redo_contract_witness :
    (pushMany c1EmptySt [snapA, snapB]).historyIndex = 1 ∧
    ((undoIter 1 (pushMany c1EmptySt [snapA, snapB])).historyIndex = 0 ∧
      [snapA, snapB][0]? =
        some (undoIter 1 (pushMany c1EmptySt [snapA, snapB])).currentState) ∧
    handleUndo (initialModalState "u") = initialModalState "u" ∧
    handleRedo (initialModalState "u") = initialModalState "u" := by
  refine ⟨?_, ?_, ?_, ?_⟩
  · simpa using c1_push_undo_redo_contract.1 c1EmptySt [snapA, snapB] rfl rfl
  · simpa using c1_push_undo_redo_contract.2.1 c1EmptySt [snapA, snapB] rfl rfl
      (by simp) 1 (by simp)
  · exact c1_push_undo_redo_contract.2.2.1 (initialModalState "u") rfl
  · exact c1_push_undo_redo_contract.2.2.2 (initialModalState "u") (by decide)

theorem handleUndo_fields (st : ModalState) (h0 : st.historyIndex > 0)
    (hlt : st.historyIndex < (st.history.length : Int)) :
    (handleUndo st).history = st.history ∧
    (handleUndo st).historyIndex = st.historyIndex - 1 ∧
    st.history[(st.historyIndex - 1).toNat]? = some (handleUndo st).currentState := by
  have hb : (st.historyIndex - 1).toNat < st.history.length := by omega
  have hget : st.history[(st.historyIndex - 1).toNat]? =
      some (st.history.get ⟨(st.historyIndex - 1).toNat, hb⟩) :=
    List.getElem?_eq_getElem hb
  simp only [handleUndo, hget, h0, if_true]
  exact ⟨trivial, trivial, trivial⟩

theorem handleRedo_fields (st : ModalState) (h0 : 0 ≤ st.historyIndex)
    (hlt : st.historyIndex < (st.history.length : Int) - 1) :
    (handleRedo st).history = st.history ∧
    (handleRedo st).historyIndex = st.historyIndex + 1 ∧
    st.history[(st.historyIndex + 1).toNat]? = some (handleRedo st).currentState := by
  have hb : (st.historyIndex + 1).toNat < st.history.length := by omega
  have hget : st.history[(st.historyIndex + 1).toNat]? =
      some (st.history.get ⟨(st.historyIndex + 1).toNat, hb⟩) :=
    List.getElem?_eq_getElem hb
  have hcond : st.historyIndex < (st.history.length : Int) - 1 := hlt
  simp only [handleRedo, hget, hcond, if_true]
  exact ⟨trivial, trivial, trivial⟩

/-- C2. `pushState` truncates every history entry after the cursor, appends
the new snapshot, and moves the cursor to the new tip; therefore `handleRedo`
directly after any `pushState` (in particular after an undo followed by a
push, which discarded the redo entries by truncation) is a no-op; and
`handleRedo` after `handleUndo`, with no intervening push, restores a
current state equal (bit-identical, as the very same stored snapshot) to
the one current before the undo, provided the cursor was in bounds and in
sync with the current state. -/
theorem c2_push_truncates_and_redo_restores :
    (∀ (st : ModalState) (s : EditorState),
      (pushState st s).history =
        st.history.take (st.historyIndex + 1).toNat ++ [s] ∧
      (pushState st s).historyIndex = ((pushState st s).history.length : Int) - 1 ∧
      (pushState st s).currentState = s) ∧
    (∀ (st : ModalState) (s : EditorState),
      handleRedo (pushState st s) = pushState st s) ∧
    (∀ st : ModalState, 0 < st.historyIndex →
      st.historyIndex < (st.history.length : Int) →
      st.history[st.historyIndex.toNat]? = some st.currentState →
      (handleRedo (handleUndo st)).currentState = st.currentState) := by
  refine ⟨fun st s => ⟨rfl, by simp [pushState], rfl⟩, ?_, ?_⟩
  · intro st s
    have hsync : (pushState st s).historyIndex =
        ((pushState st s).history.length : Int) - 1 := by
      simp [pushState]
    simp [handleRedo, hsync]
  · intro st h0 hlt hsync
    obtain ⟨hu1, hu2, _⟩ := handleUndo_fields st h0 hlt
    have hr0 : 0 ≤ (handleUndo st).historyIndex := by omega
    have hrlt : (handleUndo st).historyIndex <
        ((handleUndo st).history.length : Int) - 1 := by
      rw [hu1, hu2]; omega
    obtain ⟨_, _, hr3⟩ := handleRedo_fields (handleUndo st) hr0 hrlt
    rw [hu1, hu2] at hr3
    have hidx : (st.historyIndex - 1 + 1).toNat = st.historyIndex.toNat := by omega
    rw [hidx, hsync] at hr3
    exact (Option.some.injEq _ _).mp hr3 |>.symm

theorem c2_push_truncates_and_redo_restores_witness :
    handleRedo (pushState (initialModalState "u") snapB) =
      pushState (initialModalState "u") snapB ∧
    (handleRedo (handleUndo (pushState (initialModalState "u") snapB))).currentState =
      (pushState (initialModalState "u") snapB).currentState := by
  constructor
  · exact c2_push_truncates_and_redo_restores.2.1 (initialModalState "u") snapB
  · exact c2_push_truncates_and_redo_restores.2.2
      (pushState (initialModalState "u") snapB) (by decide) (by decide) (by decide)

/-- C7, counterexample. `handleReset` does not clear a pending drag
session: resetting a state whose `dragSession` is non-null leaves that
drag session in place (the session is only cleared by the separate
pointer-up/leave handler). -/
theorem c7_reset_keeps_dragSession :
    c7DragSt.dragSession ≠ none ∧
    (handleReset c7DragSt).dragSession = c7DragSt.dragSession := by
  exact ⟨by decide, rfl⟩

/-- C7, amended. `handleReset` always pushes a fresh baseline snapshot
(rotation 0, filter `'none'`, empty drawings, the original source image
reference, regardless of prior edit depth), restores the displayed image
to the source, and clears the crop-tool state (ratio back to custom, box
zeroed) — but it leaves any pending drag session untouched. -/
theorem c7_reset_baseline (st : ModalState) :
    (handleReset st).history = st.history.take (st.historyIndex + 1).toNat ++
      [initialEditorState st.imageUrl] ∧
    (handleReset st).currentState = initialEditorState st.imageUrl ∧
    (initialEditorState st.imageUrl).rotation = 0 ∧
    (initialEditorState st.imageUrl).filter = "none" ∧
    (initialEditorState st.imageUrl).drawings = [] ∧
    (initialEditorState st.imageUrl).imageSrc = some (ImageRef.source st.imageUrl) ∧
    (handleReset st).currentImage = ImageRef.source st.imageUrl ∧
    (handleReset st).cropRatio = CropRatio.custom ∧
    (handleReset st).cropBox = ⟨0, 0, 0, 0⟩ ∧
    (handleReset st).dragSession = st.dragSession :=
  ⟨rfl, rfl, rfl, rfl, rfl, rfl, rfl, rfl, rfl, rfl⟩

theorem pushState_getElem?_le (st : ModalState) (s : EditorState)
    (hwf : st.historyIndex < (st.history.length : Int))
    (i : Nat) (hi : (i : Int) ≤ st.historyIndex) :
    (pushState st s).history[i]? = st.history[i]? := by
  have h1 : i < (st.historyIndex + 1).toNat := by omega
  have h2 : i < (st.history.take (st.historyIndex + 1).toNat).length := by
    simp only [List.length_take]
    omega
  simp only [pushState]
  rw [List.getElem?_append_left h2, List.getElem?_take_of_lt h1]

/-- C8, counterexample. The history is not only mutated through
`pushState`: `handleImageLoad` edits the snapshot stored at the cursor in
place. On a freshly opened modal (whose single stored snapshot has no
`width`), an image load with natural dimensions 2000×1333 changes that
stored snapshot's `width` from absent to 2000 without any push (the
history length stays 1). -/
theorem c8_imageLoad_edits_snapshot :
    (handleImageLoad (initialModalState "u") 2000 1333).history.length =
      (initialModalState "u").history.length ∧
    ((initialModalState "u").history[0]?).map EditorState.width = some none ∧
    ((handleImageLoad (initialModalState "u") 2000 1333).history[0]?).map
      EditorState.width = some (some 2000) := by
  exact ⟨rfl, rfl, rfl⟩

/-- C8, amended. Every operation except `handleImageLoad` mutates the
history only through `pushState`: for any event other than an image load,
each stored snapshot at a position up to the cursor is bitwise unchanged
(entries strictly beyond the cursor may be truncated by a push);
`handleImageLoad` alone back-fills `width`/`height` into the snapshot at
the cursor, in place. -/
theorem c8_history_only_through_push (st : ModalState) (e : Event)
    (hnl : ∀ w h : Int, e ≠ Event.imageLoadEvent w h)
    (hwf : st.historyIndex < (st.history.length : Int))
    (i : Nat) (hi : (i : Int) ≤ st.historyIndex) :
    (step st e).history[i]? = st.history[i]? := by
  cases e
  case imageLoadEvent w h => exact absurd rfl (hnl w h)
  all_goals
    simp only [step, handleUndo, handleRedo, handleReset, handleRotate,
      handleFilter, handleResizeApply, handleCropApply, handleCropBoxMouseDown,
      handleEditorMouseDown, handleEditorMouseMove, handleEditorMouseUp,
      handleCanvasMouseDown, handleCanvasMouseMove, handleCanvasMouseUp,
      handleTextChange, handleTextBlur, handleTextEscape, handleTextDelete,
      handleResizeWidthChange, handleResizeHeightChange]
  all_goals repeat' split
  all_goals
    first
      | rfl
      | exact pushState_getElem?_le st _ hwf i hi

theorem c8_history_only_through_push_witness :
    (step (pushState (initialModalState "u") snapB) Event.undoClick).history[0]? =
      (pushState (initialModalState "u") snapB).history[0]? :=
  c8_history_only_through_push (pushState (initialModalState "u") snapB)
    Event.undoClick (fun _ _ h => Event.noConfusion h) (by decide) 0 (by decide)

/-- C3. A custom crop whose percentage box has `width < 1` or `height < 1`,
or whose resulting pixel rectangle
(`width·box.width/100 × height·box.height/100`, with the effective source
dimensions the code uses) is smaller than 10×10 pixels, is rejected:
`handleCropApply` returns the state completely unchanged — no history
push, no snapshot change, and the crop tool (whatever tool is active)
stays as it was. -/
theorem c3_custom_crop_rejects_small (st : ModalState) (img : ImgElem)
    (hcustom : st.cropRatio = CropRatio.custom)
    (hsmall : st.cropBox.width < 1 ∨ st.cropBox.height < 1 ∨
      effWidth st img * st.cropBox.width / 100 < 10 ∨
      effHeight st img * st.cropBox.height / 100 < 10) :
    handleCropApply st (some img) = st := by
  have hcase : handleCropApply st (some img) =
      if effWidth st img = 0 ∨ effHeight st img = 0 then st
      else if st.cropBox.width < 1 ∨ st.cropBox.height < 1 then st
      else if effWidth st img * st.cropBox.width / 100 < 10 ∨
          effHeight st img * st.cropBox.height / 100 < 10 then st
      else applyCrop st (effWidth st img * st.cropBox.width / 100)
        (effHeight st img * st.cropBox.height / 100)
        (effWidth st img * st.cropBox.left / 100)
        (effHeight st img * st.cropBox.top / 100)
        (effWidth st img * st.cropBox.width / 100)
        (effHeight st img * st.cropBox.height / 100) := by
    simp only [handleCropApply, hcustom, if_true]
  rw [hcase]
  by_cases h0 : effWidth st img = 0 ∨ effHeight st img = 0
  · rw [if_pos h0]
  · rw [if_neg h0]
    by_cases hb : st.cropBox.width < 1 ∨ st.cropBox.height < 1
    · rw [if_pos hb]
    · rw [if_neg hb]
      push_neg at hb
      have hC : effWidth st img * st.cropBox.width / 100 < 10 ∨
          effHeight st img * st.cropBox.height / 100 < 10 := by
        rcases hsmall with h | h | h | h
        · exact absurd h (not_lt.mpr hb.1)
        · exact absurd h (not_lt.mpr hb.2)
        · exact Or.inl h
        · exact Or.inr h
      rw [if_pos hC]

theorem c3_custom_crop_rejects_small_witness :
    handleCropApply c3St (some ⟨1000, 1000⟩) = c3St :=
  c3_custom_crop_rejects_small c3St ⟨1000, 1000⟩ rfl
    (Or.inl (by norm_num [c3St]))

theorem ratios_bounds {r : CropRatio} {tr : ℚ} (h : ratios r = some tr) :
    0 < tr ∧ 1 ≤ tr ∧ tr ≤ 2 := by
  cases r <;> simp [ratios] at h <;> subst h <;> norm_num

/-- C4. For a preset ratio `tr` (square = 1, 3:2, 4:3, 5:4, 7:5, 16:9) and
positive effective source dimensions `w × h`, `handleCropApply` extracts
the largest centered rectangle of aspect ratio `tr` that fits:
`sw = min w (h·tr)`, `sh = min h (w/tr)` (so if `w/h > tr` the width
shrinks to `h·tr`, else the height shrinks to `w/tr`), centered at
`((w-sw)/2, (h-sh)/2)`, with `sw = tr·sh` exactly, and the new snapshot
dimensions are the rounded `sw × sh`. -/
theorem c4_preset_crop_largest_centered (st : ModalState) (img : ImgElem)
    (tr : ℚ) (hpreset : ratios st.cropRatio = some tr)
    (hw : 0 < effWidth st img) (hh : 0 < effHeight st img) :
    (handleCropApply st (some img)).currentState.width =
      some (jsRound (min (effWidth st img) (effHeight st img * tr))) ∧
    (handleCropApply st (some img)).currentState.height =
      some (jsRound (min (effHeight st img) (effWidth st img / tr))) ∧
    (handleCropApply st (some img)).currentImage =
      ImageRef.cropped st.currentImage
        ((effWidth st img - min (effWidth st img) (effHeight st img * tr)) / 2)
        ((effHeight st img - min (effHeight st img) (effWidth st img / tr)) / 2)
        (min (effWidth st img) (effHeight st img * tr))
        (min (effHeight st img) (effWidth st img / tr))
        (jsRound (min (effWidth st img) (effHeight st img * tr)))
        (jsRound (min (effHeight st img) (effWidth st img / tr))) ∧
    min (effWidth st img) (effHeight st img * tr) =
      tr * min (effHeight st img) (effWidth st img / tr) := by
  have htr : 0 < tr := (ratios_bounds hpreset).1
  have hne : st.cropRatio ≠ CropRatio.custom := by
    intro hc
    rw [hc] at hpreset
    simp [ratios] at hpreset
  have hneval : ¬(effWidth st img = 0 ∨ effHeight st img = 0) := by
    push_neg
    exact ⟨ne_of_gt hw, ne_of_gt hh⟩
  have hstep : handleCropApply st (some img) =
      (if effWidth st img / effHeight st img > tr then
        applyCrop st (effHeight st img * tr) (effHeight st img)
          ((effWidth st img - effHeight st img * tr) / 2) 0
          (effHeight st img * tr) (effHeight st img)
      else
        applyCrop st (effWidth st img) (effWidth st img / tr)
          0 ((effHeight st img - effWidth st img / tr) / 2)
          (effWidth st img) (effWidth st img / tr)) := by
    simp only [handleCropApply, hpreset, hneval, hne, if_false, ite_false]
  rw [hstep]
  by_cases hbr : effWidth st img / effHeight st img > tr
  · rw [if_pos hbr]
    have h1 : effHeight st img * tr ≤ effWidth st img := by
      have := (lt_div_iff₀ hh).mp hbr
      linarith
    have hmin1 : min (effWidth st img) (effHeight st img * tr) =
        effHeight st img * tr := min_eq_right h1
    have h2 : effHeight st img ≤ effWidth st img / tr :=
      (le_div_iff₀ htr).mpr (by linarith)
    have hmin2 : min (effHeight st img) (effWidth st img / tr) =
        effHeight st img := min_eq_left h2
    rw [hmin1, hmin2]
    refine ⟨rfl, rfl, ?_, by ring⟩
    simp [applyCrop, pushState]
  · rw [if_neg hbr]
    push_neg at hbr
    have h1 : effWidth st img ≤ effHeight st img * tr := by
      have := (div_le_iff₀ hh).mp hbr
      linarith
    have hmin1 : min (effWidth st img) (effHeight st img * tr) =
        effWidth st img := min_eq_left h1
    have h2 : effWidth st img / tr ≤ effHeight st img :=
      (div_le_iff₀ htr).mpr (by linarith)
    have hmin2 : min (effHeight st img) (effWidth st img / tr) =
        effWidth st img / tr := min_eq_right h2
    rw [hmin1, hmin2]
    refine ⟨rfl, rfl, ?_, ?_⟩
    · simp [applyCrop, pushState]
    · field_simp

theorem c4_preset_crop_largest_centered_witness :
    (handleCropApply c4St (some ⟨2000, 1333⟩)).currentState.width = some 1333 ∧
    (handleCropApply c4St (some ⟨2000, 1333⟩)).currentState.height = some 1333 := by
  have heW : effWidth c4St ⟨2000, 1333⟩ = 2000 := by
    norm_num [effWidth, jsOrI, c4St]
  have heH : effHeight c4St ⟨2000, 1333⟩ = 1333 := by
    norm_num [effHeight, jsOrI, c4St]
  obtain ⟨h1, h2, _, _⟩ := c4_preset_crop_largest_centered c4St ⟨2000, 1333⟩ 1
    rfl (by rw [heW]; norm_num) (by rw [heH]; norm_num)
  rw [heW, heH] at h1 h2
  rw [h1, h2]
  norm_num [jsRound, min_def]

theorem canvasDown_free (st : ModalState) (rect : Rect) (x y : ℚ)
    (ht : st.activeTool = ToolType.draw) (hm : st.drawMode = DrawMode.free) :
    handleCanvasMouseDown st x y (some rect) =
      { st with
        isDrawing := true
        startPoint := some (canvasPoint st rect x y)
        currentState := { st.currentState with
          drawings := st.currentState.drawings ++
            [Stroke.free st.drawColor st.brushSize [canvasPoint st rect x y]] } } := by
  simp [handleCanvasMouseDown, ht, hm]

theorem canvasDown_line (st : ModalState) (rect : Rect) (x y : ℚ)
    (ht : st.activeTool = ToolType.draw) (hm : st.drawMode = DrawMode.line) :
    handleCanvasMouseDown st x y (some rect) =
      { st with isDrawing := true, startPoint := some (canvasPoint st rect x y) } := by
  simp [handleCanvasMouseDown, ht, hm]

theorem canvasMove_free (st : ModalState) (rect : Rect) (x y : ℚ)
    (hd : st.isDrawing = true) (ht : st.activeTool = ToolType.draw)
    (hm : st.drawMode = DrawMode.free) :
    handleCanvasMouseMove st x y (some rect) =
      { st with currentState := { st.currentState with
          drawings := appendPointToLast st.currentState.drawings
            (canvasPoint st rect x y) } } := by
  simp [handleCanvasMouseMove, hd, ht, hm]

theorem canvasMove_line (st : ModalState) (rect : Rect) (x y : ℚ)
    (hm : st.drawMode = DrawMode.line) :
    handleCanvasMouseMove st x y (some rect) = st := by
  simp only [handleCanvasMouseMove, hm]
  split
  · rfl
  · simp

theorem canvasUp_free (st : ModalState) (rect : Rect) (x y : ℚ)
    (hd : st.isDrawing = true) (ht : st.activeTool = ToolType.draw)
    (hm : st.drawMode = DrawMode.free) :
    handleCanvasMouseUp st x y (some rect) =
      { pushState st st.currentState with isDrawing := false, startPoint := none } := by
  simp [handleCanvasMouseUp, hd, ht, hm]

theorem canvasUp_line (st : ModalState) (rect : Rect) (x y : ℚ) (sp : Point)
    (hd : st.isDrawing = true) (ht : st.activeTool = ToolType.draw)
    (hm : st.drawMode = DrawMode.line) (hsp : st.startPoint = some sp) :
    handleCanvasMouseUp st x y (some rect) =
      { pushState st { st.currentState with
          drawings := st.currentState.drawings ++
            [Stroke.line st.drawColor st.brushSize sp (canvasPoint st rect x y)] }
        with isDrawing := false, startPoint := none } := by
  simp [handleCanvasMouseUp, hd, ht, hm, hsp]

/-- The in-place update of the last stroke on a concatenation: appending a
point to the last stroke of `ds ++ [s]` appends it to `s`. -/
theorem appendPointToLast_concat (ds : List Stroke) (s : Stroke) (p : Point) :
    appendPointToLast (ds ++ [s]) p = ds ++ [appendPoint s p] := by
  induction ds with
  | nil => rfl
  | cons a rest ih =>
      cases rest with
      | nil => cases s <;> rfl
      | cons b rest2 =>
          have hstep : appendPointToLast ((a :: b :: rest2) ++ [s]) p =
              a :: appendPointToLast ((b :: rest2) ++ [s]) p := rfl
          rw [hstep, ih]
          rfl

/-- C5. Freehand mode: pointer-down appends a new one-point stroke to the
live drawings; each pointer-move appends exactly one point to that same
last stroke; no history push happens before pointer-up; pointer-up pushes
exactly once, committing the full current state, whose drawings end with
one `free` stroke holding the three captured points in order. Line mode:
pointer-down and pointer-moves leave the drawings (indeed the whole
current state) untouched, and pointer-up atomically appends a single
two-point `line` stroke together with the one history push. Points are
the client coordinates rescaled into canvas pixel space (`canvasPoint`). -/
theorem c5_draw_gesture_capture :
    (∀ (st : ModalState) (rect : Rect) (x1 y1 x2 y2 x3 y3 : ℚ),
      st.activeTool = ToolType.draw → st.drawMode = DrawMode.free →
      (runEvents st [Event.canvasDown x1 y1 (some rect)]).history = st.history ∧
      (runEvents st [Event.canvasDown x1 y1 (some rect),
        Event.canvasMove x2 y2 (some rect)]).history = st.history ∧
      (runEvents st [Event.canvasDown x1 y1 (some rect),
        Event.canvasMove x2 y2 (some rect),
        Event.canvasMove x3 y3 (some rect)]).history = st.history ∧
      (runEvents st [Event.canvasDown x1 y1 (some rect),
        Event.canvasMove x2 y2 (some rect),
        Event.canvasMove x3 y3 (some rect)]).currentState.drawings =
        st.currentState.drawings ++
          [Stroke.free st.drawColor st.brushSize
            [canvasPoint st rect x1 y1, canvasPoint st rect x2 y2,
             canvasPoint st rect x3 y3]] ∧
      (runEvents st [Event.canvasDown x1 y1 (some rect),
        Event.canvasMove x2 y2 (some rect),
        Event.canvasMove x3 y3 (some rect),
        Event.canvasUp x3 y3 (some rect)]).history =
        st.history.take (st.historyIndex + 1).toNat ++
          [(runEvents st [Event.canvasDown x1 y1 (some rect),
            Event.canvasMove x2 y2 (some rect),
            Event.canvasMove x3 y3 (some rect)]).currentState] ∧
      (runEvents st [Event.canvasDown x1 y1 (some rect),
        Event.canvasMove x2 y2 (some rect),
        Event.canvasMove x3 y3 (some rect),
        Event.canvasUp x3 y3 (some rect)]).currentState.drawings =
        st.currentState.drawings ++
          [Stroke.free st.drawColor st.brushSize
            [canvasPoint st rect x1 y1, canvasPoint st rect x2 y2,
             canvasPoint st rect x3 y3]]) ∧
    (∀ (st : ModalState) (rect : Rect) (x1 y1 x2 y2 x3 y3 : ℚ),
      st.activeTool = ToolType.draw → st.drawMode = DrawMode.line →
      (runEvents st [Event.canvasDown x1 y1 (some rect)]).currentState =
        st.currentState ∧
      (runEvents st [Event.canvasDown x1 y1 (some rect)]).history = st.history ∧
      (runEvents st [Event.canvasDown x1 y1 (some rect),
        Event.canvasMove x2 y2 (some rect),
        Event.canvasMove x3 y3 (some rect)]) =
        runEvents st [Event.canvasDown x1 y1 (some rect)] ∧
      (runEvents st [Event.canvasDown x1 y1 (some rect),
        Event.canvasMove x2 y2 (some rect),
        Event.canvasMove x3 y3 (some rect),
        Event.canvasUp x3 y3 (some rect)]).history =
        st.history.take (st.historyIndex + 1).toNat ++
          [{ st.currentState with drawings := st.currentState.drawings ++
            [Stroke.line st.drawColor st.brushSize (canvasPoint st rect x1 y1)
              (canvasPoint st rect x3 y3)] }] ∧
      (runEvents st [Event.canvasDown x1 y1 (some rect),
        Event.canvasMove x2 y2 (some rect),
        Event.canvasMove x3 y3 (some rect),
        Event.canvasUp x3 y3 (some rect)]).currentState.drawings =
        st.currentState.drawings ++
          [Stroke.line st.drawColor st.brushSize (canvasPoint st rect x1 y1)
            (canvasPoint st rect x3 y3)]) := by
  constructor
  · intro st rect x1 y1 x2 y2 x3 y3 ht hm
    have e1 := canvasDown_free st rect x1 y1 ht hm
    have hd1 : (handleCanvasMouseDown st x1 y1 (some rect)).isDrawing = true := by
      rw [e1]
    have ht1 : (handleCanvasMouseDown st x1 y1 (some rect)).activeTool =
        ToolType.draw := by rw [e1]; exact ht
    have hm1 : (handleCanvasMouseDown st x1 y1 (some rect)).drawMode =
        DrawMode.free := by rw [e1]; exact hm
    have e2 := canvasMove_free (handleCanvasMouseDown st x1 y1 (some rect))
      rect x2 y2 hd1 ht1 hm1
    have hd2 : (handleCanvasMouseMove (handleCanvasMouseDown st x1 y1 (some rect))
        x2 y2 (some rect)).isDrawing = true := by rw [e2, e1]
    have ht2 : (handleCanvasMouseMove (handleCanvasMouseDown st x1 y1 (some rect))
        x2 y2 (some rect)).activeTool = ToolType.draw := by rw [e2, e1]; exact ht
    have hm2 : (handleCanvasMouseMove (handleCanvasMouseDown st x1 y1 (some rect))
        x2 y2 (some rect)).drawMode = DrawMode.free := by rw [e2, e1]; exact hm
    have e3 := canvasMove_free (handleCanvasMouseMove
      (handleCanvasMouseDown st x1 y1 (some rect)) x2 y2 (some rect))
      rect x3 y3 hd2 ht2 hm2
    have hd3 : (handleCanvasMouseMove (handleCanvasMouseMove
        (handleCanvasMouseDown st x1 y1 (some rect)) x2 y2 (some rect))
        x3 y3 (some rect)).isDrawing = true := by rw [e3, e2, e1]
    have ht3 : (handleCanvasMouseMove (handleCanvasMouseMove
        (handleCanvasMouseDown st x1 y1 (some rect)) x2 y2 (some rect))
        x3 y3 (some rect)).activeTool = ToolType.draw := by rw [e3, e2, e1]; exact ht
    have hm3 : (handleCanvasMouseMove (handleCanvasMouseMove
        (handleCanvasMouseDown st x1 y1 (some rect)) x2 y2 (some rect))
        x3 y3 (some rect)).drawMode = DrawMode.free := by rw [e3, e2, e1]; exact hm
    have e4 := canvasUp_free (handleCanvasMouseMove (handleCanvasMouseMove
      (handleCanvasMouseDown st x1 y1 (some rect)) x2 y2 (some rect))
      x3 y3 (some rect)) rect x3 y3 hd3 ht3 hm3
    refine ⟨?_, ?_, ?_, ?_, ?_, ?_⟩
    · simp only [runEvents, List.foldl_cons, List.foldl_nil, step]
      rw [e1]
    · simp only [runEvents, List.foldl_cons, List.foldl_nil, step]
      rw [e2, e1]
    · simp only [runEvents, List.foldl_cons, List.foldl_nil, step]
      rw [e3, e2, e1]
    · simp only [runEvents, List.foldl_cons, List.foldl_nil, step]
      rw [e3, e2, e1]
      simp [appendPointToLast_concat, appendPoint, canvasPoint,
        canvasWidth, canvasHeight]
    · simp only [runEvents, List.foldl_cons, List.foldl_nil, step]
      rw [e4, e3, e2, e1]
      simp [pushState]
    · simp only [runEvents, List.foldl_cons, List.foldl_nil, step]
      rw [e4, e3, e2, e1]
      simp [pushState, appendPointToLast_concat, appendPoint, canvasPoint,
        canvasWidth, canvasHeight]
  · intro st rect x1 y1 x2 y2 x3 y3 ht hm
    have e1 := canvasDown_line st rect x1 y1 ht hm
    have hm1 : (handleCanvasMouseDown st x1 y1 (some rect)).drawMode =
        DrawMode.line := by rw [e1]; exact hm
    have e2 := canvasMove_line (handleCanvasMouseDown st x1 y1 (some rect))
      rect x2 y2 hm1
    have e3' := canvasMove_line (handleCanvasMouseDown st x1 y1 (some rect))
      rect x3 y3 hm1
    have e3 : handleCanvasMouseMove (handleCanvasMouseMove
        (handleCanvasMouseDown st x1 y1 (some rect)) x2 y2 (some rect))
        x3 y3 (some rect) = handleCanvasMouseDown st x1 y1 (some rect) := by
      rw [e2, e3']
    have hd1 : (handleCanvasMouseDown st x1 y1 (some rect)).isDrawing = true := by
      rw [e1]
    have ht1 : (handleCanvasMouseDown st x1 y1 (some rect)).activeTool =
        ToolType.draw := by rw [e1]; exact ht
    have hsp1 : (handleCanvasMouseDown st x1 y1 (some rect)).startPoint =
        some (canvasPoint st rect x1 y1) := by rw [e1]
    have e4 := canvasUp_line (handleCanvasMouseDown st x1 y1 (some rect))
      rect x3 y3 (canvasPoint st rect x1 y1) hd1 ht1 hm1 hsp1
    refine ⟨?_, ?_, ?_, ?_, ?_⟩
    · simp only [runEvents, List.foldl_cons, List.foldl_nil, step]
      rw [e1]
    · simp only [runEvents, List.foldl_cons, List.foldl_nil, step]
      rw [e1]
    · simp only [runEvents, List.foldl_cons, List.foldl_nil, step]
      rw [e3]
    · simp only [runEvents, List.foldl_cons, List.foldl_nil, step]
      rw [e3, e4, e1]
      simp [pushState, canvasPoint, canvasWidth, canvasHeight]
    · simp only [runEvents, List.foldl_cons, List.foldl_nil, step]
      rw [e3, e4, e1]
      simp [pushState, canvasPoint, canvasWidth, canvasHeight]

theorem c5_draw_gesture_capture_witness :
    (runEvents c5St [Event.canvasDown 10 10 (some c5Rect),
      Event.canvasMove 20 10 (some c5Rect),
      Event.canvasMove 20 20 (some c5Rect)]).currentState.drawings =
      [Stroke.free "#00a9ff" 12 [⟨10, 10⟩, ⟨20, 10⟩, ⟨20, 20⟩]] ∧
    (runEvents c5St [Event.canvasDown 10 10 (some c5Rect),
      Event.canvasMove 20 10 (some c5Rect),
      Event.canvasMove 20 20 (some c5Rect),
      Event.canvasUp 20 20 (some c5Rect)]).history =
      c5St.history ++
        [(runEvents c5St [Event.canvasDown 10 10 (some c5Rect),
          Event.canvasMove 20 10 (some c5Rect),
          Event.canvasMove 20 20 (some c5Rect)]).currentState] := by
  obtain ⟨_, _, _, h4, h5, _⟩ :=
    c5_draw_gesture_capture.1 c5St c5Rect 10 10 20 10 20 20 rfl rfl
  constructor
  · rw [h4]
    simp [canvasPoint, canvasWidth, canvasHeight, jsOrI, c5St, c5Rect,
      initialModalState, initialEditorState]
  · rw [h5]
    simp [c5St, initialModalState]

/-- C6, counterexample. Blur does not keep every object with non-empty
text: the blur handler tests `!textObj.text.trim()`, so an object whose
text is the non-empty string consisting of one ideographic full-width
space U+3000 (whitespace only, an ordinary input in this Japanese UI) is
removed on blur. -/
theorem c6_blur_removes_whitespace_text :
    ("\u3000" : String) ≠ "" ∧
    (handleTextBlur c6WsSt).textObjects = [] ∧
    (handleTextBlur c6WsSt).editingTextId = none := by
  refine ⟨by decide, by decide, by decide⟩

/-- C6, amended. With the text tool active, a click creates exactly one new
text object — empty text, the click's percentage position clamped into
`[0,100] × [0,100]`, the current global style — and puts it into edit mode;
blur while the text is blank (`!text.trim()`: empty or ECMAScript
whitespace-only, see `jsWhitespace`)
removes the object and leaves edit mode; blur with non-blank text leaves
the collection untouched and only exits edit mode; Escape removes the
object unconditionally (even if non-blank) and exits edit mode. -/
theorem c6_text_lifecycle :
    (∀ (st : ModalState) (x y : ℚ) (rect : Rect) (freshId : String),
      st.activeTool = ToolType.text →
      (handleEditorMouseDown st x y (some rect) freshId).textObjects =
        st.textObjects ++
          [{ id := freshId
             text := ""
             x := clampPercent ((x - rect.left) / rect.width * 100)
             y := clampPercent ((y - rect.top) / rect.height * 100)
             size := st.textSize
             color := st.textColor
             bold := st.textBold
             italic := st.textItalic
             underline := st.textUnderline
             align := st.textAlign }] ∧
      (handleEditorMouseDown st x y (some rect) freshId).editingTextId =
        some freshId) ∧
    (∀ q : ℚ, 0 ≤ clampPercent q ∧ clampPercent q ≤ 100) ∧
    (∀ (st : ModalState) (tid : String) (obj : TextObject),
      st.editingTextId = some tid →
      st.textObjects.find? (fun t => t.id = tid) = some obj →
      blankText obj.text = true →
      (∀ t ∈ (handleTextBlur st).textObjects, t.id ≠ tid) ∧
      (handleTextBlur st).editingTextId = none) ∧
    (∀ (st : ModalState) (tid : String) (obj : TextObject),
      st.editingTextId = some tid →
      st.textObjects.find? (fun t => t.id = tid) = some obj →
      blankText obj.text = false →
      (handleTextBlur st).textObjects = st.textObjects ∧
      (handleTextBlur st).editingTextId = none) ∧
    (∀ (st : ModalState) (tid : String),
      st.editingTextId = some tid →
      (∀ t ∈ (handleTextEscape st).textObjects, t.id ≠ tid) ∧
      (handleTextEscape st).editingTextId = none) := by
  refine ⟨?_, ?_, ?_, ?_, ?_⟩
  · intro st x y rect freshId htool
    constructor <;> simp [handleEditorMouseDown, htool]
  · intro q
    refine ⟨le_max_left 0 _, ?_⟩
    simp [clampPercent, max_le_iff, min_le_iff]
  · intro st tid obj hedit hfind hblank
    constructor
    · intro t hmem
      simp only [handleTextBlur, hedit, hfind, hblank, if_true] at hmem
      have := List.mem_filter.mp hmem
      simpa using this.2
    · simp [handleTextBlur, hedit, hfind, hblank]
  · intro st tid obj hedit hfind hblank
    constructor <;> simp [handleTextBlur, hedit, hfind, hblank]
  · intro st tid hedit
    constructor
    · intro t hmem
      simp only [handleTextEscape, hedit] at hmem
      have := List.mem_filter.mp hmem
      simpa using this.2
    · simp [handleTextEscape, hedit]

theorem c6_text_lifecycle_witness :
    (handleEditorMouseDown { initialModalState "u" with
        activeTool := ToolType.text } 50 50 (some ⟨0, 0, 100, 100⟩)
        "t9").editingTextId = some "t9" ∧
    (0 ≤ clampPercent 150 ∧ clampPercent 150 ≤ 100) ∧
    (handleTextBlur c6WsSt).editingTextId = none ∧
    (handleTextBlur c6HiSt).textObjects = c6HiSt.textObjects ∧
    (handleTextEscape c6HiSt).editingTextId = none := by
  refine ⟨?_, ?_, ?_, ?_, ?_⟩
  · exact (c6_text_lifecycle.1 _ 50 50 ⟨0, 0, 100, 100⟩ "t9" rfl).2
  · exact c6_text_lifecycle.2.1 150
  · exact (c6_text_lifecycle.2.2.1 c6WsSt "t1" c6WsObj rfl (by decide)
      (by decide)).2
  · exact (c6_text_lifecycle.2.2.2.1 c6HiSt "t1" c6HiObj rfl (by decide)
      (by decide)).1
  · exact (c6_text_lifecycle.2.2.2.2 c6HiSt "t1" rfl).2

/-- C10. `handleImageLoad` captures `originalRatio = naturalW / naturalH`;
with the maintain-aspect-ratio toggle on, editing the width field to an
integer `w` stores `w` and sets the height field to
`Math.round(w / originalRatio)`, and editing the height field to `h`
stores `h` and sets the width field to `Math.round(h * originalRatio)`. -/
theorem c10_maintain_ratio_sync :
    (∀ (st : ModalState) (naturalW naturalH : Int),
      (handleImageLoad st naturalW naturalH).originalRatio =
        (naturalW : ℚ) / (naturalH : ℚ)) ∧
    (∀ (st : ModalState) (w : Int), st.maintainRatio = true →
      (handleResizeWidthChange st (some w)).resizeWidth = some w ∧
      (handleResizeWidthChange st (some w)).resizeHeight =
        some (jsRound ((w : ℚ) / st.originalRatio))) ∧
    (∀ (st : ModalState) (h : Int), st.maintainRatio = true →
      (handleResizeHeightChange st (some h)).resizeHeight = some h ∧
      (handleResizeHeightChange st (some h)).resizeWidth =
        some (jsRound ((h : ℚ) * st.originalRatio))) := by
  refine ⟨?_, ?_, ?_⟩
  · intro st naturalW naturalH
    simp only [handleImageLoad]
    split <;> rfl
  · intro st w hm
    constructor <;> simp [handleResizeWidthChange, hm]
  · intro st h hm
    constructor <;> simp [handleResizeHeightChange, hm]

theorem c10_maintain_ratio_sync_witness :
    (handleImageLoad (initialModalState "u") 2000 1333).originalRatio =
      2000 / 1333 ∧
    (handleResizeWidthChange (initialModalState "u") (some 1000)).resizeHeight =
      some 667 ∧
    (handleResizeHeightChange (initialModalState "u") (some 667)).resizeWidth =
      some 1001 := by
  refine ⟨?_, ?_, ?_⟩
  · have h := c10_maintain_ratio_sync.1 (initialModalState "u") 2000 1333
    rw [h]
    norm_num
  · have h := (c10_maintain_ratio_sync.2.1 (initialModalState "u") 1000 rfl).2
    rw [h]
    norm_num [initialModalState, jsRound]
  · have h := (c10_maintain_ratio_sync.2.2 (initialModalState "u") 667 rfl).2
    rw [h]
    norm_num [initialModalState, jsRound]

theorem posInv_iff (st : ModalState) :
    posInv st = true ↔
      dimsPos st.currentState = true ∧ ∀ x ∈ st.history, dimsPos x = true := by
  simp [posInv, List.all_eq_true]

theorem jsRound_pos {q : ℚ} (h : 1/2 ≤ q) : 0 < jsRound q := by
  have h1 : (1 : Int) ≤ Int.floor (q + 1/2) := by
    rw [Int.le_floor]
    push_cast
    linarith
  calc (0 : Int) < 1 := zero_lt_one
    _ ≤ jsRound q := h1

theorem dimsPos_width {e : EditorState} {v : Int} (h : dimsPos e = true)
    (hv : e.width = some v) : 0 < v := by
  unfold dimsPos at h
  rw [hv] at h
  simp at h
  exact h.1

theorem dimsPos_height {e : EditorState} {v : Int} (h : dimsPos e = true)
    (hv : e.height = some v) : 0 < v := by
  unfold dimsPos at h
  rw [hv] at h
  simp at h
  exact h.2

theorem posInv_push (st : ModalState) (s : EditorState)
    (hp : posInv st = true) (hs : dimsPos s = true) :
    posInv (pushState st s) = true := by
  rcases (posInv_iff st).mp hp with ⟨_, hh⟩
  apply (posInv_iff _).mpr
  refine ⟨hs, ?_⟩
  intro x hx
  simp only [pushState] at hx
  rcases List.mem_append.mp hx with h1 | h1
  · exact hh x (List.take_subset _ _ h1)
  · rw [List.mem_singleton.mp h1]
    exact hs

theorem posInv_applyCrop (st : ModalState) (fw fh sx sy sw sh : ℚ)
    (hp : posInv st = true) (hfw : 1/2 ≤ fw) (hfh : 1/2 ≤ fh) :
    posInv (applyCrop st fw fh sx sy sw sh) = true := by
  have hsnap : dimsPos { st.currentState with
      width := some (jsRound fw)
      height := some (jsRound fh)
      mode := some Mode.crop
      imageSrc := some (ImageRef.cropped st.currentImage sx sy sw sh
        (jsRound fw) (jsRound fh)) } = true := by
    simp [dimsPos]
    exact ⟨jsRound_pos hfw, jsRound_pos hfh⟩
  exact posInv_push st _ hp hsnap

theorem jsOrI_ge_one {o : Option Int} {d : Int}
    (ho : ∀ v, o = some v → 0 < v) (hd : 0 < d) :
    (1 : ℚ) ≤ ((jsOrI o d : Int) : ℚ) := by
  rcases o with _ | v
  · simp only [jsOrI]
    exact_mod_cast hd
  · have hv := ho v rfl
    have hne : ¬v = 0 := by omega
    simp only [jsOrI, hne, if_false]
    exact_mod_cast hv

theorem step_preserves_posInv (st : ModalState) (e : Event)
    (he : goodEvent st e = true) (hp : posInv st = true) :
    posInv (step st e) = true := by
  have hc : dimsPos st.currentState = true := ((posInv_iff st).mp hp).1
  have hh : ∀ x ∈ st.history, dimsPos x = true := ((posInv_iff st).mp hp).2
  cases e with
  | undoClick =>
      simp only [step, handleUndo]
      split
      · split
        · rename_i prev heq
          exact (posInv_iff _).mpr ⟨hh prev (List.getElem?_mem heq), hh⟩
        · exact hp
      · exact hp
  | redoClick =>
      simp only [step, handleRedo]
      split
      · split
        · rename_i next heq
          exact (posInv_iff _).mpr ⟨hh next (List.getElem?_mem heq), hh⟩
        · exact hp
      · exact hp
  | resetClick => exact posInv_push st _ hp rfl
  | rotateClick => exact posInv_push st _ hp hc
  | filterClick => exact posInv_push st _ hp hc
  | resizeToolClick => exact hp
  | cropToolClick => exact hp
  | drawToolClick => exact hp
  | textToolClick => exact hp
  | resizeApplyClick =>
      simp only [step, handleResizeApply]
      split
      · rename_i w h hw2 hh2
        simp only [goodEvent] at he
        rw [hw2, hh2] at he
        simp at he
        refine posInv_push st { st.currentState with
          width := some w, height := some h, mode := some Mode.resize } hp ?_
        simp [dimsPos]
        exact ⟨he.1, he.2⟩
      · exact hp
  | resizeCancelClick => exact hp
  | editResizeWidth val =>
      simp only [step, handleResizeWidthChange]
      repeat' split
      all_goals exact hp
  | editResizeHeight val =>
      simp only [step, handleResizeHeightChange]
      repeat' split
      all_goals exact hp
  | toggleMaintain b => exact hp
  | cropApplyClick imgOpt =>
      rcases imgOpt with _ | img
      · exact hp
      · simp only [goodEvent] at he
        simp at he
        have hw1 : (1 : ℚ) ≤ effWidth st img :=
          jsOrI_ge_one (fun v hv => dimsPos_width hc hv) he.1
        have hh1 : (1 : ℚ) ≤ effHeight st img :=
          jsOrI_ge_one (fun v hv => dimsPos_height hc hv) he.2
        simp only [step, handleCropApply]
        split
        · exact hp
        · split
          · split
            · exact hp
            · split
              · exact hp
              · rename_i hbig
                push_neg at hbig
                exact posInv_applyCrop st _ _ _ _ _ _ hp
                  (by linarith [hbig.1]) (by linarith [hbig.2])
          · rename_i hnc
            split
            · rename_i tr htr
              obtain ⟨htr0, htr1, htr2⟩ := ratios_bounds htr
              split
              · exact posInv_applyCrop st _ _ _ _ _ _ hp
                  (by nlinarith) (by linarith)
              · refine posInv_applyCrop st _ _ _ _ _ _ hp (by linarith) ?_
                rw [le_div_iff₀ htr0]
                linarith
            · rename_i hnone
              exfalso
              cases hr : st.cropRatio
              case custom => rw [hr] at hnc; exact hnc rfl
              all_goals (rw [hr] at hnone; exact Option.noConfusion hnone)
  | cropCancelClick => exact hp
  | selectCropRatio r => exact hp
  | cropBoxDown type clientX clientY => exact hp
  | editorDown clientX clientY container freshId =>
      simp only [step, handleEditorMouseDown]
      repeat' split
      all_goals exact hp
  | editorMove clientX clientY container =>
      simp only [step, handleEditorMouseMove]
      repeat' split
      all_goals exact hp
  | editorUp => exact hp
  | canvasDown clientX clientY rect =>
      simp only [step, handleCanvasMouseDown]
      repeat' split
      all_goals exact hp
  | canvasMove clientX clientY rect =>
      simp only [step, handleCanvasMouseMove]
      repeat' split
      all_goals exact hp
  | canvasUp clientX clientY rect =>
      simp only [step, handleCanvasMouseUp]
      split
      · exact hp
      split
      · exact hp
      split
      · exact posInv_push st _ hp hc
      · exact posInv_push st _ hp hc
      · exact hp
  | selectDrawMode m => exact hp
  | selectDrawColor c => exact hp
  | selectBrushSize n => exact hp
  | toggleTextBold => exact hp
  | toggleTextItalic => exact hp
  | toggleTextUnderline => exact hp
  | selectTextAlign a => exact hp
  | selectTextColor c => exact hp
  | selectTextSize n => exact hp
  | textEdit s =>
      simp only [step, handleTextChange]
      repeat' split
      all_goals exact hp
  | textBlurEvent =>
      simp only [step, handleTextBlur]
      repeat' split
      all_goals exact hp
  | textEnterKey =>
      simp only [step, handleTextBlur]
      repeat' split
      all_goals exact hp
  | textEscapeKey =>
      simp only [step, handleTextEscape]
      repeat' split
      all_goals exact hp
  | textDeleteClick tid => exact hp
  | imageLoadEvent naturalW naturalH =>
      simp only [goodEvent] at he
      simp at he
      simp only [step, handleImageLoad]
      split
      · exact hp
      · split
        · rename_i entry heq
          apply (posInv_iff _).mpr
          constructor
          · simp [dimsPos]
            exact ⟨he.1, he.2⟩
          · intro y hy
            rcases List.mem_or_eq_of_mem_set hy with h1 | h1
            · exact hh y h1
            · rw [h1]
              simp [dimsPos]
              exact ⟨he.1, he.2⟩
        · apply (posInv_iff _).mpr
          constructor
          · simp [dimsPos]
            exact ⟨he.1, he.2⟩
          · exact hh

/-- C9, counterexample. Not every reachable state has all its present
`width`/`height` fields positive: the state reached by `c9Trace` is
reachable, its current snapshot carries `width = some 0`, and it violates
the claimed invariant `posInv`. -/
theorem c9_zero_width_reachable :
    Reachable "u" (runEvents (initialModalState "u") c9Trace) ∧
    (runEvents (initialModalState "u") c9Trace).currentState.width = some 0 ∧
    posInv (runEvents (initialModalState "u") c9Trace) = false := by
  refine ⟨?_, by decide, by decide⟩
  exact Reachable.next _ Event.resizeApplyClick
    (Reachable.next _ (Event.editResizeWidth (some 0))
      (Reachable.next _ (Event.toggleMaintain false) Reachable.init))

/-- C9, amended. In every state reachable through well-behaved events —
loaded images and crop sources report positive natural dimensions, and
resize apply is only pressed while both fields parse to positive integers —
the current snapshot and every stored snapshot have positive `width` and
`height` whenever those fields are present (they are integers by
construction: every producing site is `naturalWidth`, `parseInt` or
`Math.round`). Without the resize-apply guard this fails (`posInv` is
falsifiable, see the counterexample). -/
theorem c9_dims_positive (url : String) (s : ModalState)
    (h : ReachableGood url s) : posInv s = true := by
  induction h with
  | init => rfl
  | next s e _ he ih => exact step_preserves_posInv s e he ih

theorem c9_dims_positive_witness :
    posInv (runEvents (initialModalState "u")
      [Event.imageLoadEvent 2000 1333, Event.resizeApplyClick]) = true :=
  c9_dims_positive "u" _
    (ReachableGood.next _ Event.resizeApplyClick
      (ReachableGood.next _ (Event.imageLoadEvent 2000 1333)
        ReachableGood.init (by decide))
      (by decide))

end ImageEditor
